import Mathlib

/-!
Verification of the ProjetDuMois web API (website/index.js) and its schema
generator (db/20_features_update.js) against the natural-language
specification. JavaScript values that the handlers manipulate are shallowly
embedded: objects become association lists over a JS-value type, numbers
become Int, a thrown TypeError becomes `none` in an `Option` result, and
the SQL/DB layer is passed in as explicit state or oracle functions.
-/

namespace PDM

/-- JS value model: the subset of JavaScript values flowing through the
statistics and contribution handlers. -/
inductive JVal where
  | vNull : JVal
  | vBool : Bool → JVal
  | vNum : Int → JVal
  | vStr : String → JVal
  | vArr : List JVal → JVal
  | vObj : List (String × JVal) → JVal

/-- JS object model: an ordered association list of key-value entries, as
produced by Object.entries. -/
abbrev Obj := List (String × JVal)

/-- JS property read: object[key], none when the key is absent (undefined). -/
def jGet (o : Obj) (k : String) : Option JVal :=
  (o.find? (fun e => e.1 == k)).map Prod.snd

/-- JS truthiness for the modelled values. -/
def truthy : JVal → Bool
  | .vNull => false
  | .vBool b => b
  | .vNum n => n != 0
  | .vStr s => !(s == "")
  | .vArr _ => true
  | .vObj _ => true

/-- JS truthiness of a property read, where an absent key (undefined) is falsy. -/
def truthyOpt : Option JVal → Bool
  | none => false
  | some v => truthy v

/-- JS property assignment: object[key] = value replaces the value in place
when the key exists and appends the entry otherwise. -/
def jSet (o : Obj) (k : String) (v : JVal) : Obj :=
  if o.any (fun e => e.1 == k) then o.map (fun e => if e.1 == k then (k, v) else e)
  else o ++ [(k, v)]

/-
...........................................................................
Contribution Recorder badge diff (website/index.js lines 250-255)
...........................................................................
-/

/-- Row returned by the get_badges stored routine: a badge id and its
acquisition value (0 encodes the falsy unacquired state, a positive value
the acquired flag or tier). -/
structure BadgeRow where
  id : String
  acquired : Int
deriving DecidableEq

/-- Badge diff of the contribution handler, translated from
badgesAfter.filter(b => !badgeInBefore || !b.acquired ||
badgeInBefore.acquired !== b.acquired) with badgeInBefore =
badgesBefore.find(b2 => b.id === b2.id). -/
def badgesForDisplay (badgesBefore badgesAfter : List BadgeRow) : List BadgeRow :=
  badgesAfter.filter (fun b =>
    match badgesBefore.find? (fun c => b.id == c.id) with
    | none => true
    | some c => b.acquired == 0 || c.acquired != b.acquired)

/-- Badge diff as the claim words it: keep exactly the badges of after that
are newly present or whose acquired value changed. -/
def specBadgeDiff (badgesBefore badgesAfter : List BadgeRow) : List BadgeRow :=
  badgesAfter.filter (fun b =>
    match badgesBefore.find? (fun c => b.id == c.id) with
    | none => true
    | some c => c.acquired != b.acquired)

/-
...........................................................................
Home page redirect (website/index.js lines 42-46)
...........................................................................
-/

/-- Project entry as used by the home-page handler: only the id is read. -/
structure ProjInfo where
  id : String
deriving DecidableEq

/-- Modelled from the spec: output shape of filterProjects (website/utils.js,
not part of the sources). Section 4.1 of the spec: the registry is split
into a past list ordered by end ascending, an optional current project and
an optional next project. -/
structure FilterResult where
  past : List ProjInfo
  current : Option ProjInfo
  next : Option ProjInfo

/-- Home-page handler, translated from: destId = p.current ? p.current.id :
(p.next ? p.next.id : p.past.pop().id); res.redirect(destId). On an empty
past list, p.past.pop() is undefined and reading .id throws, which is
modelled as none: no redirect is produced. -/
def homeRedirect (p : FilterResult) : Option String :=
  match p.current with
  | some c => some ("/projects/" ++ c.id)
  | none =>
    match p.next with
    | some n => some ("/projects/" ++ n.id)
    | none =>
      match p.past.getLast? with
      | some l => some ("/projects/" ++ l.id)
      | none => none

/-
...........................................................................
Leaderboard fetch (website/index.js lines 88, 174-178)
...........................................................................
-/

/-- Authentication test of the statistics route, translated from
typeof req.query.osm_user === "string" && req.query.osm_user.trim().length > 0. -/
def osmUserAuthentified (osm_user : Option String) : Bool :=
  match osm_user with
  | none => false
  | some s => s.trim.length > 0

/-- Leaderboard partial result, translated from the then-handler of the
leaderboard query: nbContributors = results.rows.length and leaderboard =
osmUserAuthentified ? results.rows : null. -/
def leaderboardFetch (osm_user : Option String) (rows : List JVal) : Obj :=
  [("nbContributors", JVal.vNum rows.length),
   ("leaderboard", if osmUserAuthentified osm_user then JVal.vArr rows else JVal.vNull)]

/-
...........................................................................
Theorems for claims C1, C6, C9, C10
...........................................................................
-/

/-- Claim C1 counterexample: the claim says the returned diff contains no
badge whose acquisition state is unchanged, but on before = after =
[(A, acquired 0)] the handler returns the unchanged badge A because of the
extra !b.acquired clause, while the diff described by the claim is empty. -/
theorem badges_diff_claim_cex :
    badgesForDisplay [⟨"A", 0⟩] [⟨"A", 0⟩] ≠ specBadgeDiff [⟨"A", 0⟩] [⟨"A", 0⟩] := by
  decide

/-- Claim C1 (amended): the returned list contains exactly the badges of
after that are newly present, or whose acquired value is falsy (zero), or
whose acquired value differs from the matching badge of before; and on the
spec example before = [(A,1)], after = [(A,2),(B,1)] the result is exactly
the two badges A (changed) and B (new). -/
theorem badges_diff_amended :
    (∀ (badgesBefore badgesAfter : List BadgeRow) (b : BadgeRow),
      b ∈ badgesForDisplay badgesBefore badgesAfter ↔
        (b ∈ badgesAfter ∧
          (badgesBefore.find? (fun c => b.id == c.id) = none ∨ b.acquired = 0 ∨
            ∃ c, badgesBefore.find? (fun c => b.id == c.id) = some c ∧
              c.acquired ≠ b.acquired))) ∧
    badgesForDisplay [⟨"A", 1⟩] [⟨"A", 2⟩, ⟨"B", 1⟩] = [⟨"A", 2⟩, ⟨"B", 1⟩] := by
  constructor
  · intro badgesBefore badgesAfter b
    unfold badgesForDisplay
    rw [List.mem_filter]
    cases h : badgesBefore.find? (fun c => b.id == c.id) with
    | none =>
      simp [h]
    | some c =>
      simp only [h, Bool.or_eq_true, beq_iff_eq, bne_iff_ne]
      constructor
      · rintro ⟨hb, hp⟩
        exact ⟨hb, Or.inr (hp.elim (fun h1 => Or.inl h1) (fun h2 => Or.inr ⟨c, rfl, h2⟩))⟩
      · rintro ⟨hb, hc⟩
        refine ⟨hb, ?_⟩
        rcases hc with h1 | h2 | ⟨c2, hc2, hne⟩
        · cases h1
        · exact Or.inl h2
        · cases hc2
          exact Or.inr hne
  · decide

/-- Claim C6: the leaderboard partial result always reports nbContributors
as the row count; the leaderboard field holds the actual rows exactly when
a non-empty (after trimming) osm_user query parameter was supplied, and is
null otherwise, so an unauthenticated request reveals no row-level data. -/
theorem leaderboard_gating (osm_user : Option String) (rows : List JVal) :
    jGet (leaderboardFetch osm_user rows) "nbContributors"
        = some (JVal.vNum rows.length) ∧
    (jGet (leaderboardFetch osm_user rows) "leaderboard" = some (JVal.vArr rows)
        ↔ osmUserAuthentified osm_user = true) ∧
    (osmUserAuthentified osm_user = false →
      jGet (leaderboardFetch osm_user rows) "leaderboard" = some JVal.vNull) ∧
    jGet (leaderboardFetch none rows) "leaderboard" = some JVal.vNull := by
  refine ⟨rfl, ?_, ?_, rfl⟩
  · constructor
    · intro hv
      cases h : osmUserAuthentified osm_user with
      | true => rfl
      | false =>
        exfalso
        unfold leaderboardFetch at hv
        rw [h] at hv
        have h2 : jGet [("nbContributors", JVal.vNum (rows.length : Int)),
            ("leaderboard", if false then JVal.vArr rows else JVal.vNull)] "leaderboard"
            = some JVal.vNull := rfl
        rw [h2] at hv
        simp at hv
    · intro ht
      unfold leaderboardFetch
      rw [ht]
      rfl
  · intro hf
    unfold leaderboardFetch
    rw [hf]
    rfl

/-- Claim C6 witness at a concrete unauthenticated request. -/
theorem leaderboard_gating_witness :
    jGet (leaderboardFetch none [JVal.vStr "row1"]) "leaderboard" = some JVal.vNull :=
  (leaderboard_gating none [JVal.vStr "row1"]).2.2.1 rfl

/-- Claim C9: the home-page handler redirects to the current project when
one exists, otherwise to the next project when one exists, otherwise to the
last element of the past list (the most recent past project, the past list
being ordered by end ascending per the Project Filter contract). -/
theorem home_redirect (p : FilterResult) :
    (∀ c, p.current = some c → homeRedirect p = some ("/projects/" ++ c.id)) ∧
    (p.current = none → ∀ n, p.next = some n →
      homeRedirect p = some ("/projects/" ++ n.id)) ∧
    (p.current = none → p.next = none → ∀ l, p.past.getLast? = some l →
      homeRedirect p = some ("/projects/" ++ l.id)) := by
  refine ⟨?_, ?_, ?_⟩
  · intro c hc
    simp [homeRedirect, hc]
  · intro hc n hn
    simp [homeRedirect, hc, hn]
  · intro hc hn l hl
    simp [homeRedirect, hc, hn, hl]

/-- Claim C9 witness at a registry with a current project. -/
theorem home_redirect_witness :
    homeRedirect ⟨[], some ⟨"pdm_current"⟩, none⟩ = some "/projects/pdm_current" :=
  (home_redirect ⟨[], some ⟨"pdm_current"⟩, none⟩).1 ⟨"pdm_current"⟩ rfl

/-- Claim C10: when the filter yields no current project, no next project
and an empty past list (for instance over an empty registry), the handler
produces no redirect at all: p.past.pop() is undefined, reading .id throws,
and the modelled handler yields none. -/
theorem home_redirect_empty (p : FilterResult) (hc : p.current = none)
    (hn : p.next = none) (hp : p.past = []) : homeRedirect p = none := by
  simp [homeRedirect, hc, hn, hp]

/-- Claim C10 witness: the fully empty filter result produces no response. -/
theorem home_redirect_empty_witness :
    homeRedirect ⟨[], none, none⟩ = none :=
  home_redirect_empty ⟨[], none, none⟩ rfl rfl rfl

/-
...........................................................................
Osmose statistics (website/index.js lines 91-117)
...........................................................................
-/

/-- Data point of an osmose chart series, one (date, count) pair. -/
structure DataPoint where
  t : String
  y : Int
deriving DecidableEq

/-- Chart series built by the per-datasource osmose fetch: label, sorted
data points and border color (fill and lineTension are constants and are
reproduced by the encoder below). -/
structure Series where
  label : String
  data : List DataPoint
  borderColor : String
deriving DecidableEq

/-- Encoding of a data point as the JS object the handler builds. -/
def encodeDataPoint (p : DataPoint) : JVal :=
  .vObj [("t", .vStr p.t), ("y", .vNum p.y)]

/-- Encoding of a chart series as the JS object the handler builds. -/
def encodeSeries (s : Series) : JVal :=
  .vObj [("label", .vStr s.label),
         ("data", .vArr (s.data.map encodeDataPoint)),
         ("fill", .vBool false),
         ("borderColor", .vStr s.borderColor),
         ("lineTension", .vNum 0)]

/-- JS Array.prototype.reduce((acc,cur) => acc + cur) without an initial
value: the first element seeds the accumulator. The handler only applies it
to non-empty lists (results.length === 0 was already ruled out); the value
on [] is irrelevant and fixed to 0. -/
def jsReduceSum : List Int → Int
  | [] => 0
  | h :: t => t.foldl (· + ·) h

/-- Osmose Promise.all then-handler, translated from lines 107-117: return
the empty object when there are no series or every series has no data;
otherwise read r.data[0].y and r.data[r.data.length-1].y of every series
(none models the TypeError thrown when some series is empty) and return the
chart plus tasksSolved = sum of first values minus sum of last values. -/
def osmoseThen (results : List Series) : Option Obj :=
  if results.length == 0 || (results.filter (fun r => r.data.length > 0)).length == 0 then
    some []
  else
    match results.mapM (fun r => (r.data.head?).map DataPoint.y),
          results.mapM (fun r => (r.data.getLast?).map DataPoint.y) with
    | some firsts, some lasts =>
      some [("chart", JVal.vArr (results.map encodeSeries)),
            ("tasksSolved", JVal.vNum (jsReduceSum firsts - jsReduceSum lasts))]
    | _, _ => none

/-- First y value of every series, with 0 for an empty series (only used
when every series is non-empty). -/
def firstYs (results : List Series) : List Int :=
  results.map (fun r => (((r.data.head?).map DataPoint.y).getD 0))

/-- Last y value of every series, with 0 for an empty series (only used
when every series is non-empty). -/
def lastYs (results : List Series) : List Int :=
  results.map (fun r => (((r.data.getLast?).map DataPoint.y).getD 0))

/-- Helper: mapping a total-on-this-list Option-valued function succeeds. -/
theorem mapM_eq_some_of_isSome {α β : Type} (f : α → Option β) (d : β) (l : List α)
    (h : ∀ a ∈ l, (f a).isSome) :
    l.mapM f = some (l.map (fun a => (f a).getD d)) := by
  induction l with
  | nil => rfl
  | cons a t ih =>
    rw [List.mapM_cons, List.map_cons]
    have ha : (f a).isSome := h a (List.mem_cons_self a t)
    cases hfa : f a with
    | none => rw [hfa] at ha; cases ha
    | some b =>
      rw [ih (fun x hx => h x (List.mem_cons_of_mem a hx))]
      simp [hfa]

/-- Helper: mapping a function that is none somewhere on the list fails. -/
theorem mapM_eq_none_of_none {α β : Type} (f : α → Option β) (l : List α)
    (a : α) (ha : a ∈ l) (hfa : f a = none) : l.mapM f = none := by
  induction l with
  | nil => cases ha
  | cons x t ih =>
    rw [List.mapM_cons]
    rcases List.mem_cons.mp ha with rfl | hmem
    · rw [hfa]; rfl
    · cases hfx : f x with
      | none => rfl
      | some b => rw [ih hmem]; rfl

/-- Claim C2 counterexample: the claim says that when some series is empty
the osmose contribution is the empty object, but on one non-empty and one
empty series the handler throws while reading r.data[0].y (modelled as
none): no partial result at all is produced, not an empty object. -/
theorem osmose_totals_cex :
    osmoseThen [⟨"Src A", [⟨"2024-01-01", 5⟩], "#c62828"⟩, ⟨"Src B", [], "#c62828"⟩]
        ≠ some ([] : Obj) ∧
    osmoseThen [⟨"Src A", [⟨"2024-01-01", 5⟩], "#c62828"⟩, ⟨"Src B", [], "#c62828"⟩]
        = none := by
  have h : osmoseThen [⟨"Src A", [⟨"2024-01-01", 5⟩], "#c62828"⟩, ⟨"Src B", [], "#c62828"⟩]
      = none := rfl
  exact ⟨by rw [h]; exact fun hx => Option.noConfusion hx, h⟩

/-- Claim C2 (amended): when the series list is empty or every series is
empty the osmose contribution is the empty object; when every series is
non-empty it contains the chart and tasksSolved = (sum of first values)
minus (sum of last values); when some but not all series are empty the
handler throws and produces nothing, so the whole aggregation dies. -/
theorem osmose_totals_amended (results : List Series) :
    osmoseThen results =
      if results.isEmpty || results.all (fun r => r.data.isEmpty) then some []
      else if results.all (fun r => !r.data.isEmpty) then
        some [("chart", JVal.vArr (results.map encodeSeries)),
              ("tasksSolved", JVal.vNum (jsReduceSum (firstYs results) - jsReduceSum (lastYs results)))]
      else none := by
  by_cases hni : results = []
  · subst hni; rfl
  · have hlen : (results.length == 0) = false := by
      rw [beq_eq_false_iff_ne]
      exact fun hx => hni (List.length_eq_zero.mp hx)
    have hie : results.isEmpty = false := by
      cases results with
      | nil => exact absurd rfl hni
      | cons a t => rfl
    by_cases hall0 : ∀ r ∈ results, r.data = []
    · have hfil : results.filter (fun r => r.data.length > 0) = [] := by
        rw [List.filter_eq_nil_iff]
        intro r hr
        rw [hall0 r hr]
        simp
      have hall : results.all (fun r => r.data.isEmpty) = true := by
        rw [List.all_eq_true]
        intro r hr
        rw [hall0 r hr]
        rfl
      unfold osmoseThen
      rw [hfil, hlen, hall, hie]
      rfl
    · have hfil : (results.filter (fun r => r.data.length > 0)).length ≠ 0 := by
        intro hx
        apply hall0
        intro r hr
        have := (List.filter_eq_nil_iff).mp (List.length_eq_zero.mp hx) r hr
        cases hd : r.data with
        | nil => rfl
        | cons a t => rw [hd] at this; simp at this
      have hfilb : ((results.filter (fun r => r.data.length > 0)).length == 0) = false :=
        beq_eq_false_iff_ne.mpr hfil
      have hall : results.all (fun r => r.data.isEmpty) = false := by
        rcases (by
          by_contra hx
          push_neg at hx
          exact hall0 hx
          : ∃ r ∈ results, r.data ≠ []) with ⟨r, hr, hrd⟩
        rw [Bool.eq_false_iff]
        intro hx
        have := List.all_eq_true.mp hx r hr
        rw [List.isEmpty_iff] at this
        exact hrd this
      unfold osmoseThen
      rw [hlen, hfilb, hie, hall]
      simp only [Bool.false_or, Bool.or_self, if_false, Bool.false_eq_true]
      by_cases hne : ∀ r ∈ results, r.data ≠ []
      · have h1 : results.mapM (fun r => (r.data.head?).map DataPoint.y)
            = some (firstYs results) := by
          apply mapM_eq_some_of_isSome
          intro r hr
          cases hd : r.data with
          | nil => exact absurd hd (hne r hr)
          | cons a t => rfl
        have h2 : results.mapM (fun r => (r.data.getLast?).map DataPoint.y)
            = some (lastYs results) := by
          apply mapM_eq_some_of_isSome
          intro r hr
          cases hgl : r.data.getLast? with
          | none =>
            exfalso
            have hs := List.getLast?_isSome.mpr (hne r hr)
            rw [hgl] at hs
            cases hs
          | some p => rfl
        have hallne : results.all (fun r => !r.data.isEmpty) = true := by
          rw [List.all_eq_true]
          intro r hr
          rw [Bool.not_eq_true']
          rw [← Bool.not_eq_true]
          intro hx
          exact hne r hr (List.isEmpty_iff.mp hx)
        rw [h1, h2, hallne]
        rfl
      · push_neg at hne
        rcases hne with ⟨r, hr, hrd⟩
        have h1 : results.mapM (fun r => (r.data.head?).map DataPoint.y) = none := by
          apply mapM_eq_none_of_none _ _ r hr
          rw [hrd]
          rfl
        have hallne : results.all (fun r => !r.data.isEmpty) = false := by
          rw [Bool.eq_false_iff]
          intro hx
          have := List.all_eq_true.mp hx r hr
          rw [hrd] at this
          simp at this
        rw [h1, hallne]
        cases results.mapM (fun r => (r.data.getLast?).map DataPoint.y) with
        | none => rfl
        | some lasts => rfl

/-
...........................................................................
Statistics merge (website/index.js lines 205-215)
...........................................................................
-/

/-- JS Array.prototype.concat restricted to the shapes the merge can see:
an array receiver concatenated with an array argument appends the elements,
with a non-array argument appends the single value; a non-array receiver
would throw in the merge (toSend.chart is only ever an array there), which
is modelled as none. -/
def jsConcat : JVal → JVal → Option JVal
  | .vArr xs, .vArr ys => some (.vArr (xs ++ ys))
  | .vArr xs, v => some (.vArr (xs ++ [v]))
  | _, _ => none

/-- One step of the merge loop, translated from: if(!toSend[e[0]])
toSend[e[0]] = e[1]; else if(e[0] === "chart") toSend.chart =
toSend.chart.concat(e[1]). -/
def mergeEntry (toSend : Obj) (e : String × JVal) : Option Obj :=
  if !truthyOpt (jGet toSend e.1) then some (jSet toSend e.1 e.2)
  else if e.1 == "chart" then
    match jGet toSend e.1 with
    | some v => (jsConcat v e.2).map (jSet toSend e.1)
    | none => none
  else some toSend

/-- The Promise.all then-handler merge: starting from the empty object,
fold every entry of every partial result, in the order Promise.all
delivers them, which is the order the fetches were declared. -/
def mergeObjs (results : List Obj) : Option Obj :=
  results.foldlM (fun ts r => r.foldlM mergeEntry ts) ([] : Obj)

/-- Chart payloads of an entry list: the element lists of the array values
stored under the chart key, in order. -/
def chartParts (entries : List (String × JVal)) : List (List JVal) :=
  entries.filterMap (fun e =>
    if e.1 == "chart" then
      match e.2 with
      | .vArr xs => some xs
      | _ => none
    else none)

/-- Whether a JS value is an array. -/
def JVal.isArr : JVal → Bool
  | .vArr _ => true
  | _ => false

/-- Characterisation of a merged object relative to the processed entries:
every non-chart key holds the first entry with that key, and the chart key
holds the concatenation of all chart payloads seen so far. -/
def MergedSpec (entries : List (String × JVal)) (ts : Obj) : Prop :=
  (∀ k, k ≠ "chart" → jGet ts k = (entries.find? (fun e => e.1 == k)).map Prod.snd) ∧
  jGet ts "chart" = (if (chartParts entries).isEmpty then none
                     else some (JVal.vArr (chartParts entries).flatten))

/-- Helper: replacing the value under key k puts (k, v) first for k. -/
theorem find?_setmap_self (o : Obj) (k : String) (v : JVal)
    (h : o.any (fun e => e.1 == k) = true) :
    (o.map (fun e => if e.1 == k then (k, v) else e)).find? (fun e => e.1 == k)
      = some (k, v) := by
  induction o with
  | nil => cases h
  | cons x t ih =>
    rw [List.map_cons]
    by_cases hx : (x.1 == k) = true
    · rw [if_pos hx]
      exact List.find?_cons_of_pos _ (by simp)
    · rw [if_neg hx]
      rw [List.find?_cons_of_neg _ (by simpa using hx)]
      apply ih
      rcases List.any_eq_true.mp h with ⟨y, hy, hyk⟩
      rcases List.mem_cons.mp hy with rfl | hyt
      · exact absurd hyk (by simpa using hx)
      · exact List.any_eq_true.mpr ⟨y, hyt, hyk⟩

/-- Helper: replacing the value under key k leaves other keys untouched. -/
theorem find?_setmap_other (o : Obj) (k k2 : String) (v : JVal) (hne : k2 ≠ k) :
    (o.map (fun e => if e.1 == k then (k, v) else e)).find? (fun e => e.1 == k2)
      = o.find? (fun e => e.1 == k2) := by
  induction o with
  | nil => rfl
  | cons x t ih =>
    rw [List.map_cons]
    by_cases hx : (x.1 == k) = true
    · have hxk : x.1 = k := by simpa using hx
      have hb1 : (k == k2) = false := beq_eq_false_iff_ne.mpr (fun hh => hne hh.symm)
      have hb2 : (x.1 == k2) = false := by rw [hxk]; exact hb1
      rw [if_pos hx, List.find?_cons, List.find?_cons]
      simp only [hb1, hb2]
      exact ih
    · rw [if_neg hx, List.find?_cons, List.find?_cons]
      cases hx2 : (x.1 == k2) with
      | true => simp only [hx2]
      | false =>
        simp only [hx2]
        exact ih

/-- Helper: reading back the key just assigned. -/
theorem jGet_jSet_self (o : Obj) (k : String) (v : JVal) :
    jGet (jSet o k v) k = some v := by
  unfold jSet
  by_cases h : o.any (fun e => e.1 == k) = true
  · rw [if_pos h]
    unfold jGet
    rw [find?_setmap_self o k v h]
    rfl
  · rw [if_neg h]
    unfold jGet
    rw [List.find?_append]
    have h0 : o.find? (fun e => e.1 == k) = none := by
      rw [List.find?_eq_none]
      intro x hx hxk
      exact h (List.any_eq_true.mpr ⟨x, hx, hxk⟩)
    rw [h0]
    simp [List.find?_cons]

/-- Helper: assigning key k leaves reads of any other key unchanged. -/
theorem jGet_jSet_other (o : Obj) (k k2 : String) (v : JVal) (hne : k2 ≠ k) :
    jGet (jSet o k v) k2 = jGet o k2 := by
  unfold jSet
  by_cases h : o.any (fun e => e.1 == k) = true
  · rw [if_pos h]
    unfold jGet
    rw [find?_setmap_other o k k2 v hne]
  · rw [if_neg h]
    unfold jGet
    rw [List.find?_append]
    have h1 : ([((k, v) : String × JVal)].find? (fun e => e.1 == k2)) = none := by
      rw [List.find?_eq_none]
      intro x hx hxk
      rcases List.mem_cons.mp hx with rfl | hx0
      · have hk : k = k2 := by simpa using hxk
        exact hne hk.symm
      · cases hx0
    rw [h1, Option.or_none]

/-- Helper: a singleton whose key differs from k contains no k entry. -/
theorem find?_singleton_none (e : String × JVal) (k : String) (hne : e.1 ≠ k) :
    [e].find? (fun x => x.1 == k) = none := by
  rw [List.find?_eq_none]
  intro x hx hxk
  rcases List.mem_cons.mp hx with rfl | h0
  · exact hne (by simpa using hxk)
  · cases h0

/-- Helper: chartParts distributes over append. -/
theorem chartParts_append (a b : List (String × JVal)) :
    chartParts (a ++ b) = chartParts a ++ chartParts b := by
  unfold chartParts
  exact List.filterMap_append a b _

/-- Helper: chartParts of a singleton. -/
theorem chartParts_singleton_chart (e : String × JVal) (xs : List JVal)
    (hek : e.1 = "chart") (hxs : e.2 = JVal.vArr xs) :
    chartParts [e] = [xs] := by
  unfold chartParts
  rw [List.filterMap_cons]
  simp [hek, hxs]

/-- Helper: chartParts of a non-chart singleton. -/
theorem chartParts_singleton_other (e : String × JVal) (hek : e.1 ≠ "chart") :
    chartParts [e] = [] := by
  unfold chartParts
  rw [List.filterMap_cons]
  simp [beq_eq_false_iff_ne.mpr hek]

/-- Helper: one merge step preserves the merged-object characterisation. -/
theorem mergeEntry_step (done : List (String × JVal)) (ts : Obj) (e : String × JVal)
    (hocc : e.1 ≠ "chart" → done.find? (fun x => x.1 == e.1) = none)
    (hech : e.1 = "chart" → e.2.isArr = true)
    (hspec : MergedSpec done ts) :
    ∃ ts2, mergeEntry ts e = some ts2 ∧ MergedSpec (done ++ [e]) ts2 := by
  obtain ⟨hother, hchart⟩ := hspec
  by_cases hek : e.1 = "chart"
  · have harr := hech hek
    obtain ⟨xs, hxs⟩ : ∃ xs, e.2 = JVal.vArr xs := by
      cases hv : e.2 with
      | vArr xs => exact ⟨xs, rfl⟩
      | vNull => rw [hv] at harr; simp [JVal.isArr] at harr
      | vBool b => rw [hv] at harr; simp [JVal.isArr] at harr
      | vNum n => rw [hv] at harr; simp [JVal.isArr] at harr
      | vStr s => rw [hv] at harr; simp [JVal.isArr] at harr
      | vObj o => rw [hv] at harr; simp [JVal.isArr] at harr
    by_cases hcp : (chartParts done).isEmpty = true
    · have hcd : chartParts done = [] := List.isEmpty_iff.mp hcp
      have hget : jGet ts e.1 = none := by
        rw [hek, hchart, if_pos hcp]
      refine ⟨jSet ts e.1 e.2, ?_, ?_, ?_⟩
      · unfold mergeEntry
        rw [hget]
        rfl
      · intro k hk
        have hk2 : k ≠ e.1 := by rw [hek]; exact hk
        rw [jGet_jSet_other _ _ _ _ hk2, hother k hk, List.find?_append,
          find?_singleton_none e k (fun hh => hk2 hh.symm), Option.or_none]
      · rw [hek, hxs, jGet_jSet_self, chartParts_append, hcd,
          chartParts_singleton_chart e xs hek hxs]
        simp
    · have hne0 : chartParts done ≠ [] := fun hx => hcp (by rw [hx]; rfl)
      obtain ⟨c, cs, hcd⟩ := List.exists_cons_of_ne_nil hne0
      have hget : jGet ts e.1 = some (JVal.vArr (chartParts done).flatten) := by
        rw [hek, hchart, if_neg hcp]
      refine ⟨jSet ts e.1 (JVal.vArr ((chartParts done).flatten ++ xs)), ?_, ?_, ?_⟩
      · unfold mergeEntry
        rw [hget, hxs]
        have hbe : (e.1 == "chart") = true := beq_iff_eq.mpr hek
        simp [truthyOpt, truthy, jsConcat, hbe]
      · intro k hk
        have hk2 : k ≠ e.1 := by rw [hek]; exact hk
        rw [jGet_jSet_other _ _ _ _ hk2, hother k hk, List.find?_append,
          find?_singleton_none e k (fun hh => hk2 hh.symm), Option.or_none]
      · rw [hek, jGet_jSet_self, chartParts_append,
          chartParts_singleton_chart e xs hek hxs, hcd]
        simp [List.flatten_append]
  · have hget : jGet ts e.1 = none := by
      rw [hother e.1 hek, hocc hek]
      rfl
    refine ⟨jSet ts e.1 e.2, ?_, ?_, ?_⟩
    · unfold mergeEntry
      rw [hget]
      rfl
    · intro k hk
      by_cases hk2 : k = e.1
      · subst hk2
        rw [jGet_jSet_self, List.find?_append, hocc hek]
        simp [List.find?_cons]
      · rw [jGet_jSet_other _ _ _ _ hk2, hother k hk, List.find?_append,
          find?_singleton_none e k (fun hh => hk2 hh.symm), Option.or_none]
    · have hce : ("chart" : String) ≠ e.1 := fun hh => hek hh.symm
      rw [jGet_jSet_other _ _ _ _ hce, hchart, chartParts_append,
        chartParts_singleton_other e hek, List.append_nil]

/-- Helper: folding the merge over an entry list produces an object
satisfying the merged-object characterisation, provided every non-chart key
occurs at most once overall and every chart value is an array. -/
theorem mergeEntries_invariant :
    ∀ (rest done : List (String × JVal)) (ts : Obj),
    (∀ k, k ≠ "chart" → ((done ++ rest).filter (fun e => e.1 == k)).length ≤ 1) →
    (∀ e ∈ done ++ rest, e.1 = "chart" → e.2.isArr = true) →
    MergedSpec done ts →
    ∃ M, rest.foldlM mergeEntry ts = some M ∧ MergedSpec (done ++ rest) M := by
  intro rest
  induction rest with
  | nil =>
    intro done ts hdisj hch hspec
    exact ⟨ts, rfl, by simpa using hspec⟩
  | cons e rs ih =>
    intro done ts hdisj hch hspec
    have hocc : e.1 ≠ "chart" → done.find? (fun x => x.1 == e.1) = none := by
      intro hek
      rw [List.find?_eq_none]
      intro x hx hxk
      have hd := hdisj e.1 hek
      rw [List.filter_append, List.length_append] at hd
      have hx1 : x ∈ done.filter (fun y => y.1 == e.1) := List.mem_filter.mpr ⟨hx, hxk⟩
      have he1 : e ∈ (e :: rs).filter (fun y => y.1 == e.1) :=
        List.mem_filter.mpr ⟨List.mem_cons_self e rs, by simp⟩
      have l1 : 0 < (done.filter (fun y => y.1 == e.1)).length :=
        List.length_pos.mpr (List.ne_nil_of_mem hx1)
      have l2 : 0 < ((e :: rs).filter (fun y => y.1 == e.1)).length :=
        List.length_pos.mpr (List.ne_nil_of_mem he1)
      omega
    have hech : e.1 = "chart" → e.2.isArr = true :=
      fun hek => hch e (by simp) hek
    obtain ⟨ts2, hstep, hspec2⟩ := mergeEntry_step done ts e hocc hech hspec
    have heq : (done ++ [e]) ++ rs = done ++ e :: rs := by simp
    obtain ⟨M, hfold, hspecM⟩ := ih (done ++ [e]) ts2
      (by rw [heq]; exact hdisj) (by rw [heq]; exact hch) hspec2
    refine ⟨M, ?_, by rw [← heq]; exact hspecM⟩
    rw [List.foldlM_cons, hstep]
    exact hfold

/-- Helper: the full merge equals folding the merge step over the flattened
entry stream, in declared order. -/
theorem mergeObjs_eq_flatten (results : List Obj) :
    mergeObjs results = (results.flatten).foldlM mergeEntry ([] : Obj) := by
  suffices h : ∀ ts : Obj, results.foldlM (fun ts r => r.foldlM mergeEntry ts) ts
      = (results.flatten).foldlM mergeEntry ts from h []
  induction results with
  | nil => intro ts; rfl
  | cons r rs ih =>
    intro ts
    rw [List.flatten_cons, List.foldlM_cons, List.foldlM_append]
    cases h : r.foldlM mergeEntry ts with
    | none => simp [h]
    | some t2 => simp [h, ih t2]

/-- Helper: from nodup non-chart keys, every non-chart key occurs at most
once in the entry stream. -/
theorem filter_key_le_one (l : List (String × JVal)) (k : String) (hk : k ≠ "chart")
    (hnd : ((l.map Prod.fst).filter (fun s => s != "chart")).Nodup) :
    (l.filter (fun e => e.1 == k)).length ≤ 1 := by
  induction l with
  | nil => simp
  | cons x t ih =>
    rw [List.map_cons] at hnd
    by_cases hxk : (x.1 == k) = true
    · have hxk2 : x.1 = k := by simpa using hxk
      have hxc : (x.1 != "chart") = true := by
        rw [hxk2]
        exact bne_iff_ne.mpr hk
      rw [List.filter_cons, if_pos hxc] at hnd
      obtain ⟨hnotm, hndt⟩ := List.nodup_cons.mp hnd
      have ht : t.filter (fun e => e.1 == k) = [] := by
        rw [List.filter_eq_nil_iff]
        intro y hy hyk
        apply hnotm
        rw [List.mem_filter]
        refine ⟨?_, by rw [hxk2]; exact bne_iff_ne.mpr hk⟩
        rw [hxk2, ← show y.1 = k from by simpa using hyk]
        exact List.mem_map.mpr ⟨y, hy, rfl⟩
      rw [List.filter_cons, if_pos hxk, ht]
      simp
    · have hndt : ((t.map Prod.fst).filter (fun s => s != "chart")).Nodup := by
        by_cases hxc : (x.1 != "chart") = true
        · rw [List.filter_cons, if_pos hxc] at hnd
          exact (List.nodup_cons.mp hnd).2
        · rwa [List.filter_cons, if_neg hxc] at hnd
      rw [List.filter_cons, if_neg hxk]
      exact ih hndt

/-- Helper: a key occurring at most once resolves find? to its entry. -/
theorem find?_eq_of_mem_of_unique (l : List (String × JVal)) (k : String) (v : JVal)
    (hmem : (k, v) ∈ l) (huniq : (l.filter (fun e => e.1 == k)).length ≤ 1) :
    l.find? (fun e => e.1 == k) = some (k, v) := by
  induction l with
  | nil => cases hmem
  | cons x t ih =>
    by_cases hxk : (x.1 == k) = true
    · rw [List.find?_cons]
      simp only [hxk]
      rw [List.filter_cons, if_pos hxk] at huniq
      have ht : t.filter (fun e => e.1 == k) = [] := by
        cases hft : t.filter (fun e => e.1 == k) with
        | nil => rfl
        | cons y ys =>
          rw [hft] at huniq
          simp at huniq
      rcases List.mem_cons.mp hmem with rfl | hmt
      · rfl
      · exfalso
        have : (k, v) ∈ t.filter (fun e => e.1 == k) :=
          List.mem_filter.mpr ⟨hmt, by simp⟩
        rw [ht] at this
        cases this
    · rw [List.find?_cons]
      simp only [hxk]
      rw [List.filter_cons, if_neg hxk] at huniq
      rcases List.mem_cons.mp hmem with heq | hmt
      · exfalso
        apply hxk
        rw [← heq]
        simp
      · exact ih hmt huniq

/-- Claim C3: over partial results whose non-chart keys are pairwise
disjoint (nodup across the declared stream) and whose chart values are
arrays, the merge succeeds and yields an object mapping every non-chart key
to the value of the unique partial result providing it, mapping absent keys
to nothing, and mapping chart to the concatenation of all chart arrays in
the order the fetches were declared (Promise.all delivers results in
declaration order, regardless of completion order). -/
theorem merge_policy (results : List Obj)
    (hdisj : (((results.flatten).map Prod.fst).filter (fun s => s != "chart")).Nodup)
    (hchart : ∀ e ∈ results.flatten, e.1 = "chart" → e.2.isArr = true) :
    ∃ M, mergeObjs results = some M ∧
      (∀ k v, k ≠ "chart" → (k, v) ∈ results.flatten → jGet M k = some v) ∧
      (∀ k, k ≠ "chart" → (∀ v, (k, v) ∉ results.flatten) → jGet M k = none) ∧
      jGet M "chart" = (if (chartParts (results.flatten)).isEmpty then none
                        else some (JVal.vArr (chartParts (results.flatten)).flatten)) := by
  have hbase : MergedSpec [] ([] : Obj) := ⟨fun k _ => rfl, rfl⟩
  obtain ⟨M, hfold, hspec⟩ := mergeEntries_invariant (results.flatten) [] ([] : Obj)
    (by
      intro k hk
      simpa using filter_key_le_one (results.flatten) k hk hdisj)
    (by simpa using hchart)
    hbase
  obtain ⟨hother, hch⟩ := by simpa using hspec
  refine ⟨M, ?_, ?_, ?_, hch⟩
  · rw [mergeObjs_eq_flatten]
    exact hfold
  · intro k v hk hmem
    rw [hother k hk, find?_eq_of_mem_of_unique (results.flatten) k v hmem
      (filter_key_le_one (results.flatten) k hk hdisj)]
    rfl
  · intro k hk habs
    rw [hother k hk]
    have : (results.flatten).find? (fun e => e.1 == k) = none := by
      rw [List.find?_eq_none]
      intro x hx hxk
      apply habs x.2
      have hx1 : x = (k, x.2) := by
        have : x.1 = k := by simpa using hxk
        rw [← this]
      rw [← hx1]
      exact hx
    rw [this]
    rfl

/-- Input of the concrete merge witness: one leaderboard-style result and
two chart producers, as the declared fetches could deliver them. -/
def mergeWitnessInput : List Obj :=
  [[("nbContributors", JVal.vNum 2)],
   [("chart", JVal.vArr [JVal.vStr "s1"]), ("tasksSolved", JVal.vNum 4)],
   [("chart", JVal.vArr [JVal.vStr "s2", JVal.vStr "s3"])]]

/-- Claim C3 witness at a concrete list of partial results. -/
theorem merge_policy_witness :
    ∃ M, mergeObjs mergeWitnessInput = some M ∧
      (∀ k v, k ≠ "chart" → (k, v) ∈ mergeWitnessInput.flatten → jGet M k = some v) ∧
      (∀ k, k ≠ "chart" → (∀ v, (k, v) ∉ mergeWitnessInput.flatten) → jGet M k = none) ∧
      jGet M "chart" = (if (chartParts (mergeWitnessInput.flatten)).isEmpty then none
                        else some (JVal.vArr (chartParts (mergeWitnessInput.flatten)).flatten)) :=
  merge_policy mergeWitnessInput (by decide) (by decide)

/-
...........................................................................
Statistics aggregation error policy (website/index.js lines 91-117, 205-215)
...........................................................................
-/

/-- Joint aggregation, translated from Promise.all(allPromises).then(send):
each fetch either resolves to a partial result or rejects with an error;
Promise.all rejects as soon as any fetch rejects, and the chain carries no
rejection handler, so no response is sent at all (none); only when every
fetch resolves are the partial results merged, in declaration order. -/
def statsAggregate (fetches : List (Except String Obj)) : Option Obj :=
  match fetches.mapM Except.toOption with
  | some rs => mergeObjs rs
  | none => none

/-- Claim C5 counterexample: the claim says a single failing fetch is
handled inside that fetch and the aggregated response is still produced
from the remaining fetches, but with one failed fetch and one successful
fetch the handler produces no response at all, instead of the merge of the
remaining result. -/
theorem stats_error_cex :
    statsAggregate [Except.error "osmose fetch failed",
      Except.ok [("nbContributors", JVal.vNum 3)]] = none ∧
    mergeObjs [[("nbContributors", JVal.vNum 3)]]
      = some [("nbContributors", JVal.vNum 3)] ∧
    statsAggregate [Except.error "osmose fetch failed",
      Except.ok [("nbContributors", JVal.vNum 3)]]
      ≠ some [("nbContributors", JVal.vNum 3)] := by
  refine ⟨rfl, rfl, ?_⟩
  intro hx
  have h : statsAggregate [Except.error "osmose fetch failed",
      Except.ok [("nbContributors", JVal.vNum 3)]] = none := rfl
  rw [h] at hx
  cases hx

/-- Claim C5 (amended): a failure of any contributing fetch rejects the
joined promise, which has no rejection handler, so no aggregated response
is produced at all; the merged response is produced exactly when every
fetch resolves. -/
theorem stats_error_amended (fetches : List (Except String Obj)) :
    ((∃ f ∈ fetches, ∃ msg, f = Except.error msg) → statsAggregate fetches = none) ∧
    (∀ rs, fetches.mapM Except.toOption = some rs →
      statsAggregate fetches = mergeObjs rs) := by
  constructor
  · rintro ⟨f, hf, msg, rfl⟩
    unfold statsAggregate
    have h : fetches.mapM Except.toOption = none :=
      mapM_eq_none_of_none _ _ _ hf rfl
    rw [h]
  · intro rs hrs
    unfold statsAggregate
    rw [hrs]

/-- Claim C5 amended witness at a single failed fetch. -/
theorem stats_error_amended_witness :
    statsAggregate [Except.error "database connection lost"] = none :=
  (stats_error_amended [Except.error "database connection lost"]).1
    ⟨Except.error "database connection lost", List.mem_cons_self _ _,
      "database connection lost", rfl⟩

/-
...........................................................................
Contribution Recorder (website/index.js lines 219-272)
...........................................................................
-/

/-- One row of user_contributions as inserted by the handler. -/
structure Contribution where
  project : String
  userid : String
  ts : Nat
  contribution : String
  verified : Bool
  points : Int
deriving DecidableEq

/-- The two tables the contribution handler writes. -/
structure DBState where
  user_names : List (String × String)
  user_contributions : List Contribution
deriving DecidableEq

/-- INSERT INTO user_names ... ON CONFLICT (userid) DO UPDATE SET username:
replace the username when the userid exists, append the row otherwise. -/
def upsertUserName (db : DBState) (uid uname : String) : DBState :=
  if db.user_names.any (fun e => e.1 == uid) then
    { db with user_names := db.user_names.map (fun e => if e.1 == uid then (uid, uname) else e) }
  else
    { db with user_names := db.user_names ++ [(uid, uname)] }

/-- INSERT INTO user_contributions, an append-only insert. -/
def insertContribution (db : DBState) (c : Contribution) : DBState :=
  { db with user_contributions := db.user_contributions ++ [c] }

/-- Response of the contribution route: redirect to an error page or send
the badge diff. -/
inductive ContribResp where
  | redirect (path : String)
  | send (badges : List BadgeRow)
deriving DecidableEq

/-- Request data of the contribution route: path parameters id and userid,
query parameters username and type (absent query parameters are none). -/
structure ContribReq where
  id : String
  userid : String
  username : Option String
  type : Option String

/-- Translation of the regex test /^\d+$/.test(userid): non-empty and all
decimal digits, stated over the character list of the string. -/
def jsUseridTest (s : String) : Bool :=
  s.data.length > 0 && s.data.all Char.isDigit

/-- First validation, translated from !req.params.id ||
!projects[req.params.id] || !p.current || p.current.id !== req.params.id. -/
def contribBadProject (knownIds : List String) (current : Option String) (id : String) : Bool :=
  id == "" || !(knownIds.contains id) ||
  (match current with
   | none => true
   | some c => c != id)

/-- Second validation, translated from !req.params.userid ||
!/^\d+$/.test(req.params.userid) || typeof req.query.username !== "string"
|| req.query.username.trim().length === 0. -/
def contribBadUser (userid : String) (username : Option String) : Bool :=
  userid == "" || !(jsUseridTest userid) ||
  (match username with
   | none => true
   | some u => u.trim.length == 0)

/-- Third validation, translated from !req.query.type ||
!["add","edit","delete"].includes(req.query.type). -/
def contribBadType (t : Option String) : Bool :=
  match t with
  | none => true
  | some s => s == "" || !(["add", "edit", "delete"].contains s)

/-- Contribution handler, translated from the POST route: three validation
gates each redirecting to /error/400 with the database untouched, then the
username upsert, the before-badges read (get_badges is a stored routine of
the external database, passed as an oracle), the contribution insert with
verified = false and points computed by the get_points oracle, the
after-badges read and the badge diff response. -/
def contribHandler (knownIds : List String) (current : Option String)
    (getBadges : DBState → String → String → List BadgeRow)
    (getPoints : String → String → Int) (now : Nat)
    (req : ContribReq) (db : DBState) : ContribResp × DBState :=
  if contribBadProject knownIds current req.id then
    (ContribResp.redirect "/error/400", db)
  else if contribBadUser req.userid req.username then
    (ContribResp.redirect "/error/400", db)
  else if contribBadType req.type then
    (ContribResp.redirect "/error/400", db)
  else
    let db1 := upsertUserName db req.userid (req.username.getD "")
    let badgesBefore := getBadges db1 req.id req.userid
    let db2 := insertContribution db1
      { project := req.id, userid := req.userid, ts := now,
        contribution := req.type.getD "", verified := false,
        points := getPoints req.id (req.type.getD "") }
    let badgesAfter := getBadges db2 req.id req.userid
    (ContribResp.send (badgesForDisplay badgesBefore badgesAfter), db2)

/-- The validation failures of claim C4, stated as the claim words them:
unknown or non-current project, user id not matching the digits regex,
username absent or empty after trimming, or type outside add/edit/delete. -/
def invalidContrib (knownIds : List String) (current : Option String) (req : ContribReq) : Prop :=
  knownIds.contains req.id = false ∨ current ≠ some req.id ∨
  jsUseridTest req.userid = false ∨
  req.username = none ∨ (∃ u, req.username = some u ∧ u.trim.length = 0) ∨
  req.type = none ∨ (∃ t, req.type = some t ∧ t ∉ (["add", "edit", "delete"] : List String))

/-- Claim C4: any of the claimed validation failures makes the handler
redirect to the 400 error page with the database state unchanged: no row is
written to user_names or user_contributions. -/
theorem contrib_validation (knownIds : List String) (current : Option String)
    (getBadges : DBState → String → String → List BadgeRow)
    (getPoints : String → String → Int) (now : Nat)
    (req : ContribReq) (db : DBState)
    (h : invalidContrib knownIds current req) :
    contribHandler knownIds current getBadges getPoints now req db
      = (ContribResp.redirect "/error/400", db) := by
  have hrej : contribBadProject knownIds current req.id = true ∨
      contribBadUser req.userid req.username = true ∨
      contribBadType req.type = true := by
    rcases h with h1 | h2 | h3 | h4 | ⟨u, hu, hut⟩ | h6 | ⟨t, ht, htm⟩
    · left
      unfold contribBadProject
      rw [h1]
      simp
    · left
      unfold contribBadProject
      cases hc : current with
      | none => simp
      | some c =>
        have hcne : c ≠ req.id := fun hh => h2 (by rw [hc, hh])
        simp [bne_iff_ne.mpr hcne]
    · right; left
      unfold contribBadUser
      rw [h3]
      simp
    · right; left
      unfold contribBadUser
      rw [h4]
      simp
    · right; left
      unfold contribBadUser
      rw [hu]
      simp [hut]
    · right; right
      unfold contribBadType
      rw [h6]
    · right; right
      unfold contribBadType
      rw [ht]
      simp [htm]
  unfold contribHandler
  rcases hrej with hc | hc | hc
  · rw [if_pos hc]
  · by_cases c1 : contribBadProject knownIds current req.id = true
    · rw [if_pos c1]
    · rw [if_neg c1, if_pos hc]
  · by_cases c1 : contribBadProject knownIds current req.id = true
    · rw [if_pos c1]
    · by_cases c2 : contribBadUser req.userid req.username = true
      · rw [if_neg c1, if_pos c2]
      · rw [if_neg c1, if_neg c2, if_pos hc]

/-- Claim C4 witness: the userid "12a" fails the digits test and is
rejected without any database write. -/
theorem contrib_validation_witness :
    contribHandler ["pdm_2024"] (some "pdm_2024") (fun _ _ _ => []) (fun _ _ => 0) 0
      ⟨"pdm_2024", "12a", some "alice", some "add"⟩ ⟨[], []⟩
      = (ContribResp.redirect "/error/400", ⟨[], []⟩) :=
  contrib_validation ["pdm_2024"] (some "pdm_2024") (fun _ _ _ => []) (fun _ _ => 0) 0
    ⟨"pdm_2024", "12a", some "alice", some "add"⟩ ⟨[], []⟩
    (Or.inr (Or.inr (Or.inl (by decide))))

/-
...........................................................................
Schema generator (db/20_features_update.js)
...........................................................................
-/

/-- Translation of id.split("_").pop(): the characters after the last
underscore (the whole id when it has no underscore), rebuilt by a fold that
restarts at every underscore, which coincides with splitting on the
single-character separator and taking the last piece. -/
def jsSuffix (id : String) : String :=
  String.mk (id.data.foldl (fun acc c => if c = '_' then [] else acc ++ [c]) [])

/-- The osm_id column of the unified view, translated from the type ===
"point" ternary of the generator. -/
def osmidSelect (ty : String) : String :=
  if ty == "point" then "CONCAT(\x27node/\x27, osm_id) AS osm_id"
  else "CASE WHEN osm_id < 0 THEN CONCAT(\x27relation/\x27, -osm_id) ELSE CONCAT(\x27way/\x27, osm_id) END AS osm_id"

/-- The geom column of the unified view, translated from the type ===
"point" ternary of the generator. -/
def geomSelect (ty : String) : String :=
  if ty == "point" then "geom::GEOMETRY(Point, 3857)"
  else "ST_PointOnSurface(geom)::GEOMETRY(Point, 3857) AS geom"

/-- One SELECT arm of the unified view for a geometry type. -/
def typeSelect (id ty : String) : String :=
  "SELECT " ++ osmidSelect ty
    ++ ", name, hstore_to_json(tags) AS tags, tags ?| ARRAY[\x27note\x27,\x27fixme\x27] AS needs_check, "
    ++ geomSelect ty ++ " FROM project_" ++ jsSuffix id ++ "_" ++ ty

/-- The CREATE OR REPLACE VIEW statement for a project, a UNION ALL of its
per-type SELECT arms. -/
def unifiedViewSQL (id : String) (types : List String) : String :=
  "CREATE OR REPLACE VIEW project_" ++ jsSuffix id ++ " AS "
    ++ String.intercalate " UNION ALL " (types.map (typeSelect id))

/-- Comparison configuration of a project: geometry types and the
proximity radius of the compare_tiles materialized view. -/
structure CompareConf where
  types : List String
  radius : Nat

/-- The part of a project definition the generator reads: the imposm
geometry types and the optional comparison configuration. -/
structure ProjectDB where
  types : List String
  compare : Option CompareConf

/-- One SELECT arm of the comparison view for a geometry type (ST_Centroid
instead of ST_PointOnSurface, no needs_check column). -/
def compareTypeSelect (id ty : String) : String :=
  "SELECT " ++ osmidSelect ty ++ ", name, hstore_to_json(tags) AS tags, "
    ++ (if ty == "point" then "geom::GEOMETRY(Point, 3857)"
        else "ST_Centroid(geom)::GEOMETRY(Point, 3857) AS geom")
    ++ " FROM project_" ++ jsSuffix id ++ "_compare_" ++ ty

/-- The preSQL statements pushed for one project: the main view drop, plus
the comparison view and materialized view drops when a comparison
configuration is present. -/
def projPreSQL (id : String) (p : ProjectDB) : List String :=
  ["DROP VIEW IF EXISTS project_" ++ jsSuffix id ++ " CASCADE"]
  ++ (match p.compare with
      | none => []
      | some _ =>
        ["DROP VIEW IF EXISTS project_" ++ jsSuffix id ++ "_compare CASCADE",
         "DROP MATERIALIZED VIEW IF EXISTS project_" ++ jsSuffix id ++ "_compare_tiles"])

/-- The postSQL statements pushed for one project: the unified view, plus
the comparison view, the compare_tiles materialized view and its spatial
index when a comparison configuration is present. -/
def projPostSQL (id : String) (p : ProjectDB) : List String :=
  [unifiedViewSQL id p.types]
  ++ (match p.compare with
      | none => []
      | some c =>
        ["CREATE OR REPLACE VIEW project_" ++ jsSuffix id ++ "_compare AS "
           ++ String.intercalate " UNION ALL " (c.types.map (compareTypeSelect id)),
         "CREATE MATERIALIZED VIEW IF NOT EXISTS project_" ++ jsSuffix id
           ++ "_compare_tiles AS SELECT * FROM project_" ++ jsSuffix id
           ++ "_compare WHERE osm_id NOT IN (SELECT DISTINCT c.osm_id FROM project_"
           ++ jsSuffix id ++ "_compare c, project_" ++ jsSuffix id
           ++ " b WHERE ST_DWithin(c.geom, b.geom, " ++ toString c.radius ++ "))",
         "CREATE INDEX project_" ++ jsSuffix id
           ++ "_compare_tiles_geom_idx ON project_" ++ jsSuffix id
           ++ "_compare_tiles USING GIST(geom)"])

/-- The postUpdateSQL statements pushed for one project: the refresh of the
compare_tiles materialized view when a comparison configuration is present. -/
def projPostUpdateSQL (id : String) (p : ProjectDB) : List String :=
  match p.compare with
  | none => []
  | some _ => ["REFRESH MATERIALIZED VIEW project_" ++ jsSuffix id ++ "_compare_tiles"]

/-- The preSQL batch over the whole registry, in registry order. -/
def genPreSQL (projects : List (String × ProjectDB)) : List String :=
  (projects.map (fun e => projPreSQL e.1 e.2)).flatten

/-- The postSQL batch over the whole registry, in registry order. -/
def genPostSQL (projects : List (String × ProjectDB)) : List String :=
  (projects.map (fun e => projPostSQL e.1 e.2)).flatten

/-- The postUpdateSQL batch over the whole registry, in registry order. -/
def genPostUpdateSQL (projects : List (String × ProjectDB)) : List String :=
  (projects.map (fun e => projPostUpdateSQL e.1 e.2)).flatten

/-- Mode resolution of the generated shell script: mode="$1", empty or
missing argument defaults to update. -/
def scriptMode (arg : Option String) : String :=
  if arg.getD "" == "" then "update" else arg.getD ""

/-- The SQL batches the generated script executes, following its control
flow: the init branch runs preSQL then postSQL, the other branch (the
update path) runs only postUpdateSQL. -/
def scriptSQL (arg : Option String) (projects : List (String × ProjectDB)) : List String :=
  if scriptMode arg == "init" then genPreSQL projects ++ genPostSQL projects
  else genPostUpdateSQL projects

/-- A DROP VIEW or DROP MATERIALIZED VIEW statement. -/
def isDropStmt (s : String) : Prop :=
  (∃ r, s = "DROP VIEW IF EXISTS " ++ r) ∨
  (∃ r, s = "DROP MATERIALIZED VIEW IF EXISTS " ++ r)

/-- A CREATE VIEW, CREATE MATERIALIZED VIEW or CREATE INDEX statement. -/
def isCreateStmt (s : String) : Prop :=
  (∃ r, s = "CREATE OR REPLACE VIEW " ++ r) ∨
  (∃ r, s = "CREATE MATERIALIZED VIEW " ++ r) ∨
  (∃ r, s = "CREATE INDEX " ++ r)

/-- A REFRESH MATERIALIZED VIEW statement. -/
def isRefreshStmt (s : String) : Prop :=
  ∃ r, s = "REFRESH MATERIALIZED VIEW " ++ r

/-- Helper: a prefix decomposition survives appending on the right. -/
theorem head_extract (a b : String) (h : ∃ r, b = a ++ r) (x : String) :
    ∃ r, b ++ x = a ++ r := by
  rcases h with ⟨r, hr⟩
  exact ⟨r ++ x, by rw [hr, String.append_assoc]⟩

/-- Helper: every preSQL statement of a project is a drop statement. -/
theorem projPreSQL_drops (id : String) (p : ProjectDB) :
    ∀ s ∈ projPreSQL id p, isDropStmt s := by
  intro s hs
  unfold projPreSQL at hs
  cases hp : p.compare with
  | none =>
    rw [hp] at hs
    simp only [List.append_nil, List.mem_singleton] at hs
    subst hs
    left
    repeat apply head_extract
    exact ⟨"project_", rfl⟩
  | some c =>
    rw [hp] at hs
    simp only [List.cons_append, List.nil_append, List.mem_cons,
      List.not_mem_nil, or_false] at hs
    rcases hs with rfl | rfl | rfl
    · left
      repeat apply head_extract
      exact ⟨"project_", rfl⟩
    · left
      repeat apply head_extract
      exact ⟨"project_", rfl⟩
    · right
      repeat apply head_extract
      exact ⟨"project_", rfl⟩

/-- Helper: every postSQL statement of a project is a create statement. -/
theorem projPostSQL_creates (id : String) (p : ProjectDB) :
    ∀ s ∈ projPostSQL id p, isCreateStmt s := by
  intro s hs
  unfold projPostSQL at hs
  cases hp : p.compare with
  | none =>
    rw [hp] at hs
    simp only [List.append_nil, List.mem_singleton] at hs
    subst hs
    unfold unifiedViewSQL
    left
    repeat apply head_extract
    exact ⟨"project_", rfl⟩
  | some c =>
    rw [hp] at hs
    simp only [List.cons_append, List.nil_append, List.mem_cons,
      List.not_mem_nil, or_false] at hs
    rcases hs with rfl | rfl | rfl | rfl
    · unfold unifiedViewSQL
      left
      repeat apply head_extract
      exact ⟨"project_", rfl⟩
    · left
      repeat apply head_extract
      exact ⟨"project_", rfl⟩
    · right; left
      repeat apply head_extract
      exact ⟨"IF NOT EXISTS project_", rfl⟩
    · right; right
      repeat apply head_extract
      exact ⟨"project_", rfl⟩

/-- Helper: every postUpdateSQL statement of a project is a refresh
statement. -/
theorem projPostUpdateSQL_refreshes (id : String) (p : ProjectDB) :
    ∀ s ∈ projPostUpdateSQL id p, isRefreshStmt s := by
  intro s hs
  unfold projPostUpdateSQL at hs
  cases hp : p.compare with
  | none =>
    rw [hp] at hs
    cases hs
  | some c =>
    rw [hp] at hs
    simp only [List.mem_singleton] at hs
    subst hs
    repeat apply head_extract
    exact ⟨"project_", rfl⟩

/-- Claim C8: the generator emits exactly three batches, pre holding only
DROP VIEW / DROP MATERIALIZED VIEW statements, post holding only CREATE
VIEW / CREATE MATERIALIZED VIEW / CREATE INDEX statements and post-update
holding only REFRESH MATERIALIZED VIEW statements; the generated script
runs pre and post exactly in init mode and post-update in every other
mode, update being the default when no argument is given. -/
theorem schema_batches (projects : List (String × ProjectDB)) :
    (∀ s ∈ genPreSQL projects, isDropStmt s) ∧
    (∀ s ∈ genPostSQL projects, isCreateStmt s) ∧
    (∀ s ∈ genPostUpdateSQL projects, isRefreshStmt s) ∧
    scriptSQL none projects = genPostUpdateSQL projects ∧
    scriptSQL (some "init") projects = genPreSQL projects ++ genPostSQL projects ∧
    (∀ m, m ≠ "init" → scriptSQL (some m) projects = genPostUpdateSQL projects) := by
  refine ⟨?_, ?_, ?_, rfl, rfl, ?_⟩
  · intro s hs
    unfold genPreSQL at hs
    rcases List.mem_flatten.mp hs with ⟨l, hl, hsl⟩
    rcases List.mem_map.mp hl with ⟨e, _, rfl⟩
    exact projPreSQL_drops e.1 e.2 s hsl
  · intro s hs
    unfold genPostSQL at hs
    rcases List.mem_flatten.mp hs with ⟨l, hl, hsl⟩
    rcases List.mem_map.mp hl with ⟨e, _, rfl⟩
    exact projPostSQL_creates e.1 e.2 s hsl
  · intro s hs
    unfold genPostUpdateSQL at hs
    rcases List.mem_flatten.mp hs with ⟨l, hl, hsl⟩
    rcases List.mem_map.mp hl with ⟨e, _, rfl⟩
    exact projPostUpdateSQL_refreshes e.1 e.2 s hsl
  · intro m hm
    unfold scriptSQL scriptMode
    by_cases hme : m = ""
    · subst hme
      rfl
    · have h1 : (m == "") = false := beq_eq_false_iff_ne.mpr hme
      have h2 : (m == "init") = false := beq_eq_false_iff_ne.mpr hm
      simp [h1, h2]

/-- Registry used by the concrete schema witness: one project with a
comparison configuration. -/
def schemaWitnessRegistry : List (String × ProjectDB) :=
  [("demo_foo", ⟨["point", "line"], some ⟨["point"], 50⟩⟩)]

set_option maxRecDepth 20000 in
/-- Claim C8 witness at a concrete registry and concrete statements. -/
theorem schema_batches_witness :
    isDropStmt "DROP VIEW IF EXISTS project_foo CASCADE" ∧
    scriptSQL none schemaWitnessRegistry = genPostUpdateSQL schemaWitnessRegistry ∧
    scriptSQL (some "update") schemaWitnessRegistry = genPostUpdateSQL schemaWitnessRegistry :=
  ⟨(schema_batches schemaWitnessRegistry).1 "DROP VIEW IF EXISTS project_foo CASCADE"
      (by decide),
   (schema_batches schemaWitnessRegistry).2.2.2.1,
   (schema_batches schemaWitnessRegistry).2.2.2.2.2 "update" (by decide)⟩

set_option maxRecDepth 20000 in
/-- Claim C7: for geometry types [point, line], the generated statement for
a project is a CREATE OR REPLACE VIEW over the UNION ALL of the point arm
and the line arm; the point arm selects from project_(suffix)_point and
normalizes the id as node/(id), the line arm selects from
project_(suffix)_line and normalizes the id as relation/(-id) for negative
raw ids and way/(id) otherwise; for the id demo_foo the suffix is foo and
the full statement is the expected one. -/
theorem schema_unified_view :
    (∀ id, unifiedViewSQL id ["point", "line"]
      = "CREATE OR REPLACE VIEW project_" ++ jsSuffix id ++ " AS "
        ++ (typeSelect id "point" ++ " UNION ALL " ++ typeSelect id "line")) ∧
    (∀ id, typeSelect id "point"
      = "SELECT CONCAT(\x27node/\x27, osm_id) AS osm_id, name, hstore_to_json(tags) AS tags, tags ?| ARRAY[\x27note\x27,\x27fixme\x27] AS needs_check, geom::GEOMETRY(Point, 3857) FROM project_"
        ++ jsSuffix id ++ "_point") ∧
    (∀ id, typeSelect id "line"
      = "SELECT CASE WHEN osm_id < 0 THEN CONCAT(\x27relation/\x27, -osm_id) ELSE CONCAT(\x27way/\x27, osm_id) END AS osm_id, name, hstore_to_json(tags) AS tags, tags ?| ARRAY[\x27note\x27,\x27fixme\x27] AS needs_check, ST_PointOnSurface(geom)::GEOMETRY(Point, 3857) AS geom FROM project_"
        ++ jsSuffix id ++ "_line") ∧
    unifiedViewSQL "demo_foo" ["point", "line"]
      = "CREATE OR REPLACE VIEW project_foo AS SELECT CONCAT(\x27node/\x27, osm_id) AS osm_id, name, hstore_to_json(tags) AS tags, tags ?| ARRAY[\x27note\x27,\x27fixme\x27] AS needs_check, geom::GEOMETRY(Point, 3857) FROM project_foo_point UNION ALL SELECT CASE WHEN osm_id < 0 THEN CONCAT(\x27relation/\x27, -osm_id) ELSE CONCAT(\x27way/\x27, osm_id) END AS osm_id, name, hstore_to_json(tags) AS tags, tags ?| ARRAY[\x27note\x27,\x27fixme\x27] AS needs_check, ST_PointOnSurface(geom)::GEOMETRY(Point, 3857) AS geom FROM project_foo_line" := by
  refine ⟨fun id => rfl, fun id => ?_, fun id => ?_, rfl⟩
  · unfold typeSelect osmidSelect geomSelect
    rw [String.append_assoc]
    rfl
  · unfold typeSelect osmidSelect geomSelect
    rw [String.append_assoc]
    rfl

end PDM
